import Mathlib

/-!
Verification of the statistical computation engine of `src/lgc.py`
(clinical-trial simulator).

The pure numeric routines of the engine are embedded shallowly over the
real numbers.  The external collaborators (`scipy.stats.norm.cdf` and
`scipy.stats.norm.isf`, and the `binoculars` binomial-CI estimator) are
out of scope per the specification and are passed in as explicit
function parameters.  Python runtime failures (`ZeroDivisionError` and
the `math` domain errors raised by `math.log` / `math.sqrt`) are
modelled by `Option`-valued variants of the affected arithmetic
operations, with `none` exactly where Python raises.
-/

namespace LGC

open Real Classical

noncomputable section

/-- The configuration flag `WALTER_CI = True` of `src/lgc.py` line 70:
the Walter method is used for the relative-risk CI throughout. -/
def WALTER_CI : Bool := true

/-- Python `round(x, n)` over the reals: round `x` to `n` decimal
places.  (Python rounds exact halves to even while `round` here rounds
halves up; no claim in this development depends on an exact half tie.) -/
def roundTo (n : ℕ) (x : ℝ) : ℝ := (round (x * 10 ^ n) : ℝ) / 10 ^ n

/-- `get_phi` of `src/lgc.py` lines 102-109: the multiplicative centre
of the relative-risk interval.  Katz branch (`walter = false`):
`p1 / p0`; Walter branch: `exp(log((x1+0.5)/(n1+0.5)) - log((x0+0.5)/(n0+0.5)))`
with event counts `x0 = p0*n0`, `x1 = p1*n1`. -/
def get_phi (p0 p1 n0 n1 : ℝ) (walter : Bool) : ℝ :=
  if walter = false then p1 / p0
  else
    let x0 := p0 * n0
    let x1 := p1 * n1
    Real.exp (Real.log ((x1 + 0.5) / (n1 + 0.5)) - Real.log ((x0 + 0.5) / (n0 + 0.5)))

/-- `get_par` of `src/lgc.py` lines 111-120: the log-scale spread
parameter of the relative-risk interval. -/
def get_par (p0 p1 n0 n1 : ℝ) (walter : Bool) : ℝ :=
  if walter = false then Real.sqrt ((1 - p0) / (n0 * p0) + (1 - p1) / (n1 * p1))
  else
    let x0 := p0 * n0
    let x1 := p1 * n1
    Real.sqrt (1 / (x1 + 0.5) - 1 / (n1 + 0.5) + 1 / (x0 + 0.5) - 1 / (n0 + 0.5))

/-- Checked real division, modelling Python float division which raises
`ZeroDivisionError` on a zero divisor. -/
def pyDiv (a b : ℝ) : Option ℝ := if b = 0 then none else some (a / b)

/-- Checked logarithm, modelling `math.log` which raises a domain error
on non-positive arguments. -/
def pyLog (a : ℝ) : Option ℝ := if a ≤ 0 then none else some (Real.log a)

/-- Checked square root, modelling `math.sqrt` which raises a domain
error on negative arguments. -/
def pySqrt (a : ℝ) : Option ℝ := if a < 0 then none else some (Real.sqrt a)

/-- `get_phi` (lines 102-109) with Python exception semantics made
explicit: `none` exactly where the Python code raises. -/
def get_phi_chk (p0 p1 n0 n1 : ℝ) (walter : Bool) : Option ℝ :=
  if walter = false then pyDiv p1 p0
  else
    let x0 := p0 * n0
    let x1 := p1 * n1
    do
      let q1 ← pyDiv (x1 + 0.5) (n1 + 0.5)
      let l1 ← pyLog q1
      let q0 ← pyDiv (x0 + 0.5) (n0 + 0.5)
      let l0 ← pyLog q0
      some (Real.exp (l1 - l0))

/-- `get_par` (lines 111-120) with Python exception semantics made
explicit: `none` exactly where the Python code raises. -/
def get_par_chk (p0 p1 n0 n1 : ℝ) (walter : Bool) : Option ℝ :=
  if walter = false then do
    let t0 ← pyDiv (1 - p0) (n0 * p0)
    let t1 ← pyDiv (1 - p1) (n1 * p1)
    pySqrt (t0 + t1)
  else
    let x0 := p0 * n0
    let x1 := p1 * n1
    do
      let a ← pyDiv 1 (x1 + 0.5)
      let b ← pyDiv 1 (n1 + 0.5)
      let c ← pyDiv 1 (x0 + 0.5)
      let d ← pyDiv 1 (n0 + 0.5)
      pySqrt (a - b + c - d)

/-- `get_overlap` of `src/lgc.py` lines 123-130.  The source represents
an interval as a two-element list `[lower, upper]` (`i1[0]` and
`i1[-1]`) and "no overlap" as the empty list; here an interval is a
pair and "no overlap" is `none`. -/
def get_overlap (i1 i2 : ℝ × ℝ) : Option (ℝ × ℝ) :=
  let a := max i1.1 i2.1
  let b := min i1.2 i2.2
  if a > b then none else some (a, b)

/-- `overlap_length` of `update_data`, lines 262-269: the width of the
overlap of the two per-group confidence intervals, `0` when they are
disjoint. -/
def overlap_length (test_ci control_ci : ℝ × ℝ) : ℝ :=
  match get_overlap test_ci control_ci with
  | some lr => lr.2 - lr.1
  | none => 0

/-- The overlap-as-percentage-of-the-test-group's-interval-width value
of `update_data`, line 272: `(overlap_length / test_risk_err) * 100`
with `test_risk_err = test_ci[1] - test_ci[0]` (line 257).  The
operands are `numpy.float64` values, whose division does not raise on a
zero divisor, so the source computes this expression unconditionally,
with no guard and no failure branch. -/
def overlap_pct_test (test_ci control_ci : ℝ × ℝ) : ℝ :=
  overlap_length test_ci control_ci / (test_ci.2 - test_ci.1) * 100

/-- Modelled from the spec (§4.5 and error (d) NotComputable), which
describes behaviour absent from the source: the overlap percentage
"fails with a 'not computable' signal if that group's interval width is
zero".  To be compared with `overlap_pct_test`, the definition taken
from the source. -/
def overlap_pct_spec (test_ci control_ci : ℝ × ℝ) : Option ℝ :=
  if test_ci.2 - test_ci.1 = 0 then none
  else some (overlap_length test_ci control_ci / (test_ci.2 - test_ci.1) * 100)

/-- `get_pvalue` of `src/lgc.py` lines 140-168.  The external
`scipy.stats.norm.cdf` collaborator is the parameter `cdf`
(arguments: point, mean, standard deviation). -/
def get_pvalue (cdf : ℝ → ℝ → ℝ → ℝ) (p0 p1 n0 n1 : ℝ) : ℝ :=
  let mean := Real.log 1
  let stdev := Real.sqrt ((1 / p0 - 1) / n0 + (1 / p1 - 1) / n1)
  let observed_rr := p1 / p0
  let P_left := cdf (Real.log observed_rr) mean stdev
  let P_right := 1 - P_left
  roundTo 4 (2 * min P_right P_left)

/-- `get_pvalue2` of `src/lgc.py` lines 181-200 (the Altman
cross-check estimator).  The external `scipy.stats.norm.isf`
collaborator is the parameter `isf`. -/
def get_pvalue2 (isf : ℝ → ℝ) (risk_ratio_obs risk_ratio_l risk_ratio_r confidence_level : ℝ) : ℝ :=
  let z_value := isf ((1 - confidence_level) / 2)
  let a := (-0.717 : ℝ)
  let b := (-0.416 : ℝ)
  let log_risk_ratio_l := Real.log risk_ratio_l
  let log_risk_ratio_r := Real.log risk_ratio_r
  let log_risk_ratio_obs := Real.log risk_ratio_obs
  let std_err := (log_risk_ratio_r - log_risk_ratio_l) / (2 * z_value)
  let z_stat := |log_risk_ratio_obs / std_err|
  roundTo 4 (Real.exp (a * z_stat + b * z_stat ^ 2))

/-- The lower relative-risk interval bound, `src/lgc.py` lines 220 and
281: `phi * exp(-z * par)`. -/
def risk_ratio_l (p0 p1 n0 n1 z : ℝ) (w : Bool) : ℝ :=
  get_phi p0 p1 n0 n1 w * Real.exp (-z * get_par p0 p1 n0 n1 w)

/-- The upper relative-risk interval bound, `src/lgc.py` lines 221 and
282: `phi * exp(+z * par)`. -/
def risk_ratio_r (p0 p1 n0 n1 z : ℝ) (w : Bool) : ℝ :=
  get_phi p0 p1 n0 n1 w * Real.exp (z * get_par p0 p1 n0 n1 w)

/-- One iteration of the `get_cvalue` loop body (lines 207-221): the
relative-risk interval computed at iteration `j`, where the confidence
is `base + j*step`, `z = isf((1 - confidence)/2)` and the variance
method is the `WALTER_CI` configuration flag. -/
def cvalStep (isf : ℝ → ℝ) (p0 p1 n0 n1 base step : ℝ) (j : ℕ) : ℝ × ℝ :=
  let current_confidence := base + (j : ℝ) * step
  let z_value := isf ((1 - current_confidence) / 2)
  (risk_ratio_l p0 p1 n0 n1 z_value WALTER_CI,
   risk_ratio_r p0 p1 n0 n1 z_value WALTER_CI)

/-- The exit test of the `get_cvalue` loop, line 223:
`1 >= risk_ratio_l and 1 <= risk_ratio_r`. -/
def containsOne (lr : ℝ × ℝ) : Prop := 1 ≥ lr.1 ∧ 1 ≤ lr.2

/-- The `get_cvalue` loop (lines 205-228), indexed by the iteration
counter `j` and a fuel bound: the Python `while` loop has no iteration
cap, so a run that never meets the exit test is modelled by `none` for
every fuel value. -/
def get_cvalue_aux (isf : ℝ → ℝ) (p0 p1 n0 n1 base step : ℝ) : ℕ → ℕ → Option ℝ
  | 0, _ => none
  | fuel + 1, j =>
      if containsOne (cvalStep isf p0 p1 n0 n1 base step j) then
        some (roundTo 4 (1 - (base + (j : ℝ) * step - step)))
      else
        get_cvalue_aux isf p0 p1 n0 n1 base step fuel (j + 1)

/-- `get_cvalue` of `src/lgc.py` lines 203-228, with an explicit fuel
parameter standing for the number of loop iterations allowed. -/
def get_cvalue (isf : ℝ → ℝ) (p0 p1 n0 n1 base step : ℝ) (fuel : ℕ) : Option ℝ :=
  get_cvalue_aux isf p0 p1 n0 n1 base step fuel 0

/-- Modelled from the spec (§4.4 as quoted by claim C1), which inverts
the loop exit test of the source: the search "stops the first time the
interval no longer contains 1" and returns `1 - (confidence - step)`.
To be compared with `get_cvalue_aux`, taken from the source. -/
def get_cvalue_claim_aux (isf : ℝ → ℝ) (p0 p1 n0 n1 base step : ℝ) : ℕ → ℕ → Option ℝ
  | 0, _ => none
  | fuel + 1, j =>
      if containsOne (cvalStep isf p0 p1 n0 n1 base step j) then
        get_cvalue_claim_aux isf p0 p1 n0 n1 base step fuel (j + 1)
      else
        some (roundTo 4 (1 - (base + (j : ℝ) * step - step)))

/-- The critical-confidence search as claim C1 describes it; compare
with `get_cvalue`. -/
def get_cvalue_claim (isf : ℝ → ℝ) (p0 p1 n0 n1 base step : ℝ) (fuel : ℕ) : Option ℝ :=
  get_cvalue_claim_aux isf p0 p1 n0 n1 base step fuel 0

/-- Termination of the `get_cvalue` loop: some number of iterations
suffices to produce a result. -/
def cvalueTerminates (isf : ℝ → ℝ) (p0 p1 n0 n1 base step : ℝ) : Prop :=
  ∃ fuel v, get_cvalue isf p0 p1 n0 n1 base step fuel = some v

/-- A real number that is an integer multiple of `0.0001`, i.e. a value
quantized to 4 decimal places. -/
def quantized4 (x : ℝ) : Prop := ∃ k : ℤ, x = (k : ℝ) / 10000

/-- The adverse-effects detectability threshold of `update_data`, line
288: `(1 - (1 - confidence_level) ** (1 / test_participants)) * 100`,
where `confidence_level` is the confidence percentage divided by 100
(line 233). -/
def adv_effects_threshold (confidence_level test_participants : ℝ) : ℝ :=
  (1 - (1 - confidence_level) ^ ((1 : ℝ) / test_participants)) * 100

end

/-! ### Helper lemmas -/

theorem get_cvalue_aux_succ (isf : ℝ → ℝ) (p0 p1 n0 n1 base step : ℝ) (fuel j : ℕ) :
    get_cvalue_aux isf p0 p1 n0 n1 base step (fuel + 1) j =
      if containsOne (cvalStep isf p0 p1 n0 n1 base step j) then
        some (roundTo 4 (1 - (base + (j : ℝ) * step - step)))
      else
        get_cvalue_aux isf p0 p1 n0 n1 base step fuel (j + 1) := rfl

theorem get_cvalue_aux_zero (isf : ℝ → ℝ) (p0 p1 n0 n1 base step : ℝ) (j : ℕ) :
    get_cvalue_aux isf p0 p1 n0 n1 base step 0 j = none := rfl

theorem get_cvalue_claim_aux_succ (isf : ℝ → ℝ) (p0 p1 n0 n1 base step : ℝ) (fuel j : ℕ) :
    get_cvalue_claim_aux isf p0 p1 n0 n1 base step (fuel + 1) j =
      if containsOne (cvalStep isf p0 p1 n0 n1 base step j) then
        get_cvalue_claim_aux isf p0 p1 n0 n1 base step fuel (j + 1)
      else
        some (roundTo 4 (1 - (base + (j : ℝ) * step - step))) := rfl

theorem roundTo_eq_of_bounds (x : ℝ) (k : ℤ) (h1 : (k : ℝ) ≤ x * 10 ^ 4 + 1 / 2)
    (h2 : x * 10 ^ 4 + 1 / 2 < (k : ℝ) + 1) : roundTo 4 x = (k : ℝ) / 10 ^ 4 := by
  unfold roundTo
  rw [round_eq]
  have hk : ⌊x * 10 ^ 4 + 1 / 2⌋ = k := Int.floor_eq_iff.mpr ⟨h1, by linarith⟩
  rw [hk]

theorem roundTo4_nonneg (x : ℝ) (hx : 0 ≤ x) : 0 ≤ roundTo 4 x := by
  unfold roundTo
  have h10 : (0 : ℝ) ≤ 10 ^ 4 := by norm_num
  have h : (0 : ℤ) ≤ round (x * 10 ^ 4) := by
    rw [round_eq]
    refine Int.floor_nonneg.mpr ?_
    nlinarith
  have h' : (0 : ℝ) ≤ (round (x * 10 ^ 4) : ℝ) := by exact_mod_cast h
  positivity

theorem roundTo4_le_one (x : ℝ) (hx : x ≤ 1) : roundTo 4 x ≤ 1 := by
  unfold roundTo
  have h : round (x * 10 ^ 4) ≤ 10000 := by
    rw [round_eq]
    have hle : (⌊x * 10 ^ 4 + 1 / 2⌋ : ℝ) ≤ x * 10 ^ 4 + 1 / 2 := Int.floor_le _
    have hlt : (⌊x * 10 ^ 4 + 1 / 2⌋ : ℝ) < 10001 := by nlinarith
    have : ⌊x * 10 ^ 4 + 1 / 2⌋ < 10001 := by exact_mod_cast hlt
    omega
  have h' : (round (x * 10 ^ 4) : ℝ) ≤ 10000 := by exact_mod_cast h
  rw [div_le_one (by norm_num : (0 : ℝ) < 10 ^ 4)]
  norm_num at h' ⊢
  exact h'

theorem two_sided_bounds (c : ℝ) (h0 : 0 ≤ c) (h1 : c ≤ 1) :
    0 ≤ 2 * min (1 - c) c ∧ 2 * min (1 - c) c ≤ 1 := by
  constructor
  · have h := le_min (by linarith : (0 : ℝ) ≤ 1 - c) h0
    linarith
  · rcases le_total c (1 / 2) with h | h
    · have := min_le_right (1 - c) c
      linarith
    · have := min_le_left (1 - c) c
      linarith

theorem quantized4_roundTo (x : ℝ) : quantized4 (roundTo 4 x) :=
  ⟨round (x * 10 ^ 4), by unfold roundTo; norm_num⟩

theorem get_phi_half_quarter : get_phi 0.5 0.25 1 1 true = 0.75 := by
  show Real.exp (Real.log ((0.25 * 1 + 0.5) / (1 + 0.5)) - Real.log ((0.5 * 1 + 0.5) / (1 + 0.5)))
      = 0.75
  rw [Real.exp_sub, Real.exp_log (by norm_num), Real.exp_log (by norm_num)]
  norm_num

theorem get_par_half_quarter : get_par 0.5 0.25 1 1 true = 1 := by
  show Real.sqrt (1 / (0.25 * 1 + 0.5) - 1 / (1 + 0.5) + 1 / (0.5 * 1 + 0.5) - 1 / (1 + 0.5)) = 1
  have h : (1 / (0.25 * 1 + 0.5) - 1 / (1 + 0.5) + 1 / (0.5 * 1 + 0.5) - 1 / (1 + 0.5) : ℝ) = 1 := by
    norm_num
  rw [h, Real.sqrt_one]

theorem get_phi_half_half : get_phi 0.5 0.5 1 1 true = 1 := by
  show Real.exp (Real.log ((0.5 * 1 + 0.5) / (1 + 0.5)) - Real.log ((0.5 * 1 + 0.5) / (1 + 0.5)))
      = 1
  rw [sub_self, Real.exp_zero]

theorem risk_ratio_l_z0 (p0 p1 n0 n1 : ℝ) (w : Bool) :
    risk_ratio_l p0 p1 n0 n1 0 w = get_phi p0 p1 n0 n1 w := by
  unfold risk_ratio_l
  rw [neg_zero, zero_mul, Real.exp_zero, mul_one]

theorem risk_ratio_r_z0 (p0 p1 n0 n1 : ℝ) (w : Bool) :
    risk_ratio_r p0 p1 n0 n1 0 w = get_phi p0 p1 n0 n1 w := by
  unfold risk_ratio_r
  rw [zero_mul, Real.exp_zero, mul_one]

theorem cvalStep_c2_const (b s : ℝ) (j : ℕ) :
    cvalStep (fun _ => 0) 0.5 0.25 1 1 b s j = (0.75, 0.75) := by
  unfold cvalStep
  simp only [WALTER_CI]
  rw [risk_ratio_l_z0, risk_ratio_r_z0, get_phi_half_quarter]

theorem cvalStep_c1_const (b s : ℝ) (j : ℕ) :
    cvalStep (fun _ => 0) 0.5 0.5 1 1 b s j = (1, 1) := by
  unfold cvalStep
  simp only [WALTER_CI]
  rw [risk_ratio_l_z0, risk_ratio_r_z0, get_phi_half_half]

theorem get_cvalue_aux_quantized (isf : ℝ → ℝ) (p0 p1 n0 n1 base step : ℝ) :
    ∀ fuel j v, get_cvalue_aux isf p0 p1 n0 n1 base step fuel j = some v → quantized4 v := by
  intro fuel
  induction fuel with
  | zero =>
      intro j v h
      rw [get_cvalue_aux_zero] at h
      exact absurd h (by simp)
  | succ f ih =>
      intro j v h
      rw [get_cvalue_aux_succ] at h
      split at h
      · injection h with h2
        rw [← h2]
        exact quantized4_roundTo _
      · exact ih _ _ h

theorem get_cvalue_aux_contains_of_isSome (isf : ℝ → ℝ) (p0 p1 n0 n1 base step : ℝ) :
    ∀ fuel j0, (get_cvalue_aux isf p0 p1 n0 n1 base step fuel j0).isSome = true →
      ∃ i, containsOne (cvalStep isf p0 p1 n0 n1 base step i) := by
  intro fuel
  induction fuel with
  | zero =>
      intro j0 h
      rw [get_cvalue_aux_zero] at h
      exact absurd h (by simp)
  | succ f ih =>
      intro j0 h
      rw [get_cvalue_aux_succ] at h
      by_cases hc : containsOne (cvalStep isf p0 p1 n0 n1 base step j0)
      · exact ⟨j0, hc⟩
      · rw [if_neg hc] at h
        exact ih _ h

theorem get_cvalue_aux_isSome_of_contains (isf : ℝ → ℝ) (p0 p1 n0 n1 base step : ℝ) :
    ∀ fuel j0, (∃ d, d < fuel ∧ containsOne (cvalStep isf p0 p1 n0 n1 base step (j0 + d))) →
      (get_cvalue_aux isf p0 p1 n0 n1 base step fuel j0).isSome = true := by
  intro fuel
  induction fuel with
  | zero =>
      rintro j0 ⟨d, hd, _⟩
      exact absurd hd (Nat.not_lt_zero d)
  | succ f ih =>
      rintro j0 ⟨d, hd, hc⟩
      rw [get_cvalue_aux_succ]
      by_cases h0 : containsOne (cvalStep isf p0 p1 n0 n1 base step j0)
      · rw [if_pos h0]; rfl
      · rw [if_neg h0]
        rcases d with _ | d
        · exact absurd (by simpa using hc) h0
        · exact ih (j0 + 1) ⟨d, Nat.lt_of_succ_lt_succ hd, by
            have : j0 + 1 + d = j0 + (d + 1) := by omega
            rw [this]; exact hc⟩

theorem get_cvalue_aux_first (isf : ℝ → ℝ) (p0 p1 n0 n1 base step : ℝ) (j : ℕ)
    (hat : containsOne (cvalStep isf p0 p1 n0 n1 base step j)) :
    ∀ fuel j0, j0 ≤ j → j < j0 + fuel →
      (∀ i, j0 ≤ i → i < j → ¬ containsOne (cvalStep isf p0 p1 n0 n1 base step i)) →
      get_cvalue_aux isf p0 p1 n0 n1 base step fuel j0 =
        some (roundTo 4 (1 - (base + (j : ℝ) * step - step))) := by
  intro fuel
  induction fuel with
  | zero =>
      intro j0 h1 h2 _
      omega
  | succ f ih =>
      intro j0 h1 h2 h3
      rw [get_cvalue_aux_succ]
      rcases eq_or_lt_of_le h1 with rfl | hlt
      · rw [if_pos hat]
      · rw [if_neg (h3 j0 le_rfl hlt)]
        exact ih (j0 + 1) hlt (by omega) (fun i hi1 hi2 => h3 i (by omega) hi2)

/-! ### Claim C9: symmetry of interval overlap -/

/-- Claim C9: interval overlap (`get_overlap`) is symmetric: for all
intervals `a` and `b`, `overlap(a, b)` equals `overlap(b, a)`, whether
the result is an interval or "no overlap". -/
theorem c9_overlap_symm (i1 i2 : ℝ × ℝ) : get_overlap i1 i2 = get_overlap i2 i1 := by
  unfold get_overlap
  rw [max_comm i1.1 i2.1, min_comm i1.2 i2.2]

/-! ### Claim C6: relative-risk interval bounds and their order -/

/-- Claim C6: for every valid scenario (positive control proportion,
non-negative test proportion, non-negative critical value `z`) and both
variance methods, the relative-risk confidence interval has bounds
`phi*exp(-z*par)` and `phi*exp(+z*par)` and satisfies `lower <= upper`,
since `exp` is monotone and `z` and `par` are non-negative. -/
theorem c6_interval_ordered (p0 p1 n0 n1 z : ℝ) (w : Bool)
    (hp0 : 0 < p0) (hp1 : 0 ≤ p1) (hz : 0 ≤ z) :
    risk_ratio_l p0 p1 n0 n1 z w
        = get_phi p0 p1 n0 n1 w * Real.exp (-z * get_par p0 p1 n0 n1 w) ∧
    risk_ratio_r p0 p1 n0 n1 z w
        = get_phi p0 p1 n0 n1 w * Real.exp (z * get_par p0 p1 n0 n1 w) ∧
    risk_ratio_l p0 p1 n0 n1 z w ≤ risk_ratio_r p0 p1 n0 n1 z w := by
  refine ⟨rfl, rfl, ?_⟩
  unfold risk_ratio_l risk_ratio_r
  have hphi : 0 ≤ get_phi p0 p1 n0 n1 w := by
    cases w with
    | false =>
        unfold get_phi
        rw [if_pos rfl]
        exact div_nonneg hp1 hp0.le
    | true =>
        unfold get_phi
        rw [if_neg (by simp)]
        exact (Real.exp_pos _).le
  have hpar : 0 ≤ get_par p0 p1 n0 n1 w := by
    unfold get_par
    split
    · exact Real.sqrt_nonneg _
    · exact Real.sqrt_nonneg _
  refine mul_le_mul_of_nonneg_left (Real.exp_le_exp.mpr ?_) hphi
  rw [neg_mul]
  have := mul_nonneg hz hpar
  linarith

/-- Witness for C6 at the spec's concrete scenario with `z = 1.96`,
for the Walter method. -/
theorem c6_witness :
    risk_ratio_l 0.03 0.015 1000 1000 1.96 true ≤ risk_ratio_r 0.03 0.015 1000 1000 1.96 true :=
  (c6_interval_ordered 0.03 0.015 1000 1000 1.96 true (by norm_num) (by norm_num)
    (by norm_num)).2.2

/-! ### Claim C8: monotonicity of the adverse-effects threshold -/

/-- Claim C8: the adverse-effect detectability threshold
`(1 - (1 - confidence_pct/100)^(1/n_test)) * 100` is strictly
increasing in the confidence level and strictly decreasing in the
test-group size, for every `n_test >= 1` and confidence percentage in
`(0, 100)`. -/
theorem c8_threshold_monotone (c c1 c2 n n1 n2 : ℝ)
    (hc0 : 0 < c) (hc100 : c < 100) (hn : 1 ≤ n)
    (_h10 : 0 < c1) (h12 : c1 < c2) (h2100 : c2 < 100)
    (hn1 : 1 ≤ n1) (hn12 : n1 < n2) :
    adv_effects_threshold (c1 / 100) n < adv_effects_threshold (c2 / 100) n ∧
    adv_effects_threshold (c / 100) n2 < adv_effects_threshold (c / 100) n1 := by
  constructor
  · unfold adv_effects_threshold
    have hb1 : (0 : ℝ) ≤ 1 - c2 / 100 := by linarith
    have hlt : 1 - c2 / 100 < 1 - c1 / 100 := by linarith
    have hnpos : (0 : ℝ) < n := lt_of_lt_of_le one_pos hn
    have he : (0 : ℝ) < 1 / n := by positivity
    have := Real.rpow_lt_rpow hb1 hlt he
    nlinarith
  · unfold adv_effects_threshold
    have hb0 : (0 : ℝ) < 1 - c / 100 := by linarith
    have hb1 : 1 - c / 100 < 1 := by linarith
    have hn1pos : (0 : ℝ) < n1 := lt_of_lt_of_le one_pos hn1
    have hexp : (1 : ℝ) / n2 < 1 / n1 := one_div_lt_one_div_of_lt hn1pos hn12
    have := Real.rpow_lt_rpow_of_exponent_gt hb0 hb1 hexp
    nlinarith

/-- Witness for C8: confidence 60% vs 70% at `n = 1000`, and group
size 1000 vs 2000 at confidence 95%. -/
theorem c8_witness :
    adv_effects_threshold (60 / 100) 1000 < adv_effects_threshold (70 / 100) 1000 ∧
    adv_effects_threshold (95 / 100) 2000 < adv_effects_threshold (95 / 100) 1000 :=
  c8_threshold_monotone 95 60 70 1000 1000 2000 (by norm_num) (by norm_num) (by norm_num)
    (by norm_num) (by norm_num) (by norm_num) (by norm_num) (by norm_num)

/-! ### Claim C10: engine outputs are quantized to 4 decimal places -/

/-- Claim C10: every numeric result returned by `get_pvalue`,
`get_pvalue2` and `get_cvalue` is rounded to 4 decimal places, i.e. is
an integer multiple of `0.0001`. -/
theorem c10_outputs_quantized :
    (∀ (cdf : ℝ → ℝ → ℝ → ℝ) (p0 p1 n0 n1 : ℝ), quantized4 (get_pvalue cdf p0 p1 n0 n1)) ∧
    (∀ (isf : ℝ → ℝ) (a b c d : ℝ), quantized4 (get_pvalue2 isf a b c d)) ∧
    (∀ (isf : ℝ → ℝ) (p0 p1 n0 n1 base step : ℝ) (fuel : ℕ) (v : ℝ),
        get_cvalue isf p0 p1 n0 n1 base step fuel = some v → quantized4 v) := by
  refine ⟨?_, ?_, ?_⟩
  · intro cdf p0 p1 n0 n1
    exact quantized4_roundTo _
  · intro isf a b c d
    exact quantized4_roundTo _
  · intro isf p0 p1 n0 n1 base step fuel v h
    exact get_cvalue_aux_quantized isf p0 p1 n0 n1 base step fuel 0 v h

/-- Witness for C10, exercising all three conjuncts at concrete
inputs; the `get_cvalue` run terminates after one iteration. -/
theorem c10_witness :
    quantized4 (get_pvalue (fun _ _ _ => 0.5) 1 1 1 1) ∧
    quantized4 (get_pvalue2 (fun _ => 1) 1 1 1 0.5) ∧
    quantized4 (roundTo 4 (1 - (0.5 + ((0 : ℕ) : ℝ) * 0.25 - 0.25))) := by
  refine ⟨c10_outputs_quantized.1 _ 1 1 1 1, c10_outputs_quantized.2.1 _ 1 1 1 0.5, ?_⟩
  refine c10_outputs_quantized.2.2 (fun _ => 0) 0.5 0.5 1 1 0.5 0.25 1 _ ?_
  unfold get_cvalue
  rw [get_cvalue_aux_succ, if_pos (by rw [cvalStep_c1_const]; exact ⟨le_refl 1, le_refl 1⟩)]

/-! ### Claim C3: Walter tolerates a zero test proportion, Katz raises -/

/-- Claim C3: for every scenario with group sizes at least 1 and
`p_control > 0`, the relative-risk estimator with the Walter method
does not raise when the test-group proportion is exactly 0 (both `phi`
and `par` are computed), while the Katz method fails by division by
zero in its variance formula when either proportion is exactly zero. -/
theorem c3_walter_total_katz_fails (p0 p1 n0 n1 : ℝ)
    (hn0 : 1 ≤ n0) (hn1 : 1 ≤ n1) (hp0 : 0 < p0) (hp1 : p1 = 0) :
    (get_phi_chk p0 p1 n0 n1 true).isSome = true ∧
    (get_par_chk p0 p1 n0 n1 true).isSome = true ∧
    get_par_chk p0 p1 n0 n1 false = none ∧
    get_phi_chk 0 p1 n0 n1 false = none ∧
    get_par_chk 0 p1 n0 n1 false = none := by
  subst hp1
  have h1 : ((n1 : ℝ) + 0.5) ≠ 0 := by linarith
  have h3 : ((n0 : ℝ) + 0.5) ≠ 0 := by linarith
  have hx0 : (p0 * n0 + 0.5) ≠ 0 := by nlinarith
  refine ⟨?_, ?_, ?_, ?_, ?_⟩
  · have h2 : ¬ ((0.5 : ℝ) / (n1 + 0.5) ≤ 0) :=
      not_le.mpr (div_pos (by norm_num) (by linarith))
    have h4 : ¬ ((p0 * n0 + 0.5) / (n0 + 0.5) ≤ 0) :=
      not_le.mpr (div_pos (by nlinarith) (by linarith))
    simp [get_phi_chk, pyDiv, pyLog, h1, h3, h2, h4]
  · have b1 : ((n1 : ℝ) + 0.5)⁻¹ ≤ (1.5 : ℝ)⁻¹ := inv_anti₀ (by norm_num) (by linarith)
    have b2 : ((n0 : ℝ) + 0.5)⁻¹ ≤ (1.5 : ℝ)⁻¹ := inv_anti₀ (by norm_num) (by linarith)
    have b3 : (0 : ℝ) < (p0 * n0 + 0.5)⁻¹ := inv_pos.mpr (by nlinarith)
    have hlt : ¬ (((0.5 : ℝ))⁻¹ - (n1 + 0.5)⁻¹ + (p0 * n0 + 0.5)⁻¹ < (n0 + 0.5)⁻¹) := by
      push_neg
      have e1 : ((0.5 : ℝ))⁻¹ = 2 := by norm_num
      have e2 : ((1.5 : ℝ))⁻¹ = 2 / 3 := by norm_num
      rw [e1]
      rw [e2] at b1 b2
      linarith
    simp [get_par_chk, pyDiv, pySqrt, h1, h3, hx0, hlt, (by norm_num : (0.5 : ℝ) ≠ 0)]
  · simp [get_par_chk, pyDiv]
  · simp [get_phi_chk, pyDiv]
  · simp [get_par_chk, pyDiv]

/-- Witness for C3 at `p0 = 0.5`, `p1 = 0`, `n0 = n1 = 1000`. -/
theorem c3_witness :
    (get_phi_chk 0.5 0 1000 1000 true).isSome = true ∧
    (get_par_chk 0.5 0 1000 1000 true).isSome = true ∧
    get_par_chk 0.5 0 1000 1000 false = none ∧
    get_phi_chk 0 0 1000 1000 false = none ∧
    get_par_chk 0 0 1000 1000 false = none :=
  c3_walter_total_katz_fails 0.5 0 1000 1000 (by norm_num) (by norm_num) (by norm_num) rfl

/-! ### Claim C4: the two-sided p-value -/

/-- Claim C4, amended by the counterexample `c4_counterexample`: for
every input, assuming only that the external CDF value lies in `[0,1]`,
the value returned by `get_pvalue` equals the two-sided value
`2 * min(CDF, 1 - CDF)` at `ln(p_test/p_control)` with the stated
standard deviation, rounded to 4 decimal places, and the returned value
always lies in `[0,1]`. -/
theorem c4_pvalue_rounded_two_sided (cdf : ℝ → ℝ → ℝ → ℝ) (p0 p1 n0 n1 : ℝ)
    (h0 : 0 ≤ cdf (Real.log (p1 / p0)) (Real.log 1)
        (Real.sqrt ((1 / p0 - 1) / n0 + (1 / p1 - 1) / n1)))
    (h1 : cdf (Real.log (p1 / p0)) (Real.log 1)
        (Real.sqrt ((1 / p0 - 1) / n0 + (1 / p1 - 1) / n1)) ≤ 1) :
    get_pvalue cdf p0 p1 n0 n1 =
      roundTo 4 (2 * min
        (1 - cdf (Real.log (p1 / p0)) (Real.log 1)
              (Real.sqrt ((1 / p0 - 1) / n0 + (1 / p1 - 1) / n1)))
        (cdf (Real.log (p1 / p0)) (Real.log 1)
              (Real.sqrt ((1 / p0 - 1) / n0 + (1 / p1 - 1) / n1)))) ∧
    0 ≤ get_pvalue cdf p0 p1 n0 n1 ∧ get_pvalue cdf p0 p1 n0 n1 ≤ 1 := by
  refine ⟨rfl, ?_, ?_⟩
  · exact roundTo4_nonneg
      (2 * min
        (1 - cdf (Real.log (p1 / p0)) (Real.log 1)
              (Real.sqrt ((1 / p0 - 1) / n0 + (1 / p1 - 1) / n1)))
        (cdf (Real.log (p1 / p0)) (Real.log 1)
              (Real.sqrt ((1 / p0 - 1) / n0 + (1 / p1 - 1) / n1))))
      (two_sided_bounds _ h0 h1).1
  · exact roundTo4_le_one
      (2 * min
        (1 - cdf (Real.log (p1 / p0)) (Real.log 1)
              (Real.sqrt ((1 / p0 - 1) / n0 + (1 / p1 - 1) / n1)))
        (cdf (Real.log (p1 / p0)) (Real.log 1)
              (Real.sqrt ((1 / p0 - 1) / n0 + (1 / p1 - 1) / n1))))
      (two_sided_bounds _ h0 h1).2

/-- Counterexample to claim C4 as stated: with a (mathematically valid)
CDF value of `0.00007`, the value returned by `get_pvalue` is the
4-decimal rounding `0.0001`, not the exact two-sided value `0.00014`,
so the returned value does not equal `2 * min(CDF, 1 - CDF)`. -/
theorem c4_counterexample :
    get_pvalue (fun _ _ _ => 0.00007) 1 1 1 1 ≠
      2 * min (1 - (0.00007 : ℝ)) 0.00007 := by
  have hmin : min (1 - (0.00007 : ℝ)) 0.00007 = 0.00007 := min_eq_right (by norm_num)
  have hL : get_pvalue (fun _ _ _ => 0.00007) 1 1 1 1 = roundTo 4 (2 * min (1 - (0.00007 : ℝ)) 0.00007) := rfl
  rw [hL, hmin]
  rw [roundTo_eq_of_bounds (2 * 0.00007) 1 (by norm_num) (by norm_num)]
  norm_num

/-- Witness for C4 with a constant CDF value `0.3`. -/
theorem c4_witness :
    get_pvalue (fun _ _ _ => 0.3) 1 1 1 1 =
      roundTo 4 (2 * min (1 - (0.3 : ℝ)) 0.3) ∧
    0 ≤ get_pvalue (fun _ _ _ => 0.3) 1 1 1 1 ∧
    get_pvalue (fun _ _ _ => 0.3) 1 1 1 1 ≤ 1 :=
  c4_pvalue_rounded_two_sided (fun _ _ _ => 0.3) 1 1 1 1 (by norm_num) (by norm_num)

/-! ### Claim C5: the concrete scenario -/

/-- Claim C5: for the concrete scenario `n_control = n_test = 1000`,
`p_control = 3.0%`, `p_test = 1.5%` (fractions 0.03 and 0.015), the
relative-risk point estimate is `0.5`, and `get_pvalue` returns
`0.0268` whenever the external standard-normal CDF value at
`ln(0.5)` with the scenario's standard deviation lies in the bracket
`[0.0134, 0.01342]` (its true value is about `0.013410`). -/
theorem c5_concrete_scenario (cdf : ℝ → ℝ → ℝ → ℝ)
    (hlo : 0.0134 ≤ cdf (Real.log (0.015 / 0.03)) (Real.log 1)
        (Real.sqrt ((1 / 0.03 - 1) / 1000 + (1 / 0.015 - 1) / 1000)))
    (hhi : cdf (Real.log (0.015 / 0.03)) (Real.log 1)
        (Real.sqrt ((1 / 0.03 - 1) / 1000 + (1 / 0.015 - 1) / 1000)) ≤ 0.01342) :
    get_phi 0.03 0.015 1000 1000 false = 0.5 ∧
    get_pvalue cdf 0.03 0.015 1000 1000 = 0.0268 := by
  constructor
  · show (0.015 : ℝ) / 0.03 = 0.5
    norm_num
  · show roundTo 4 (2 * min
        (1 - cdf (Real.log (0.015 / 0.03)) (Real.log 1)
              (Real.sqrt ((1 / 0.03 - 1) / 1000 + (1 / 0.015 - 1) / 1000)))
        (cdf (Real.log (0.015 / 0.03)) (Real.log 1)
              (Real.sqrt ((1 / 0.03 - 1) / 1000 + (1 / 0.015 - 1) / 1000)))) = 0.0268
    set c := cdf (Real.log (0.015 / 0.03)) (Real.log 1)
        (Real.sqrt ((1 / 0.03 - 1) / 1000 + (1 / 0.015 - 1) / 1000)) with hc
    have hmin : min (1 - c) c = c := min_eq_right (by linarith)
    rw [hmin]
    rw [roundTo_eq_of_bounds (2 * c) 268 (by norm_num; linarith) (by norm_num; linarith)]
    norm_num

/-- Witness for C5 with the constant CDF value `0.0134`. -/
theorem c5_witness :
    get_phi 0.03 0.015 1000 1000 false = 0.5 ∧
    get_pvalue (fun _ _ _ => 0.0134) 0.03 0.015 1000 1000 = 0.0268 :=
  c5_concrete_scenario (fun _ _ _ => 0.0134) (by norm_num) (by norm_num)

/-! ### Claim C7: the overlap percentage has no zero-width guard -/

/-- Counterexample to claim C7 as stated: at a zero-width test-group
interval, the spec's guarded computation gives the "not computable"
signal, but it then disagrees with the source computation, which
divides unconditionally and always yields a value. -/
theorem c7_counterexample :
    overlap_pct_spec ((1 : ℝ), (1 : ℝ)) ((0 : ℝ), (2 : ℝ)) = none ∧
    overlap_pct_spec ((1 : ℝ), (1 : ℝ)) ((0 : ℝ), (2 : ℝ)) ≠
      some (overlap_pct_test ((1 : ℝ), (1 : ℝ)) ((0 : ℝ), (2 : ℝ))) := by
  have h : overlap_pct_spec ((1 : ℝ), (1 : ℝ)) ((0 : ℝ), (2 : ℝ)) = none := by
    unfold overlap_pct_spec
    rw [if_pos (by norm_num)]
  exact ⟨h, by rw [h]; exact fun hn => Option.noConfusion hn⟩

/-- Claim C7, amended by the counterexample `c7_counterexample`: the
source computes the overlap percentage by an unguarded division and
always produces a value; it agrees with the spec's guarded computation
exactly when the test group's interval width is non-zero. -/
theorem c7_overlap_pct_unguarded (tc cc : ℝ × ℝ) (h : tc.2 - tc.1 ≠ 0) :
    overlap_pct_spec tc cc = some (overlap_pct_test tc cc) := by
  unfold overlap_pct_spec overlap_pct_test
  rw [if_neg h]

/-- Witness for C7 at intervals of non-zero width. -/
theorem c7_witness :
    overlap_pct_spec ((0 : ℝ), (2 : ℝ)) ((1 : ℝ), (3 : ℝ)) =
      some (overlap_pct_test ((0 : ℝ), (2 : ℝ)) ((1 : ℝ), (3 : ℝ))) :=
  c7_overlap_pct_unguarded ((0 : ℝ), (2 : ℝ)) ((1 : ℝ), (3 : ℝ)) (by norm_num)

/-! ### Claims C1 and C2: the critical-confidence search -/

theorem cvalStep_lin_zero :
    cvalStep (fun q => 1 - 2 * q) 0.5 0.25 1 1 0.1 0.9 0 =
      (0.75 * Real.exp (-(0.1 : ℝ)), 0.75 * Real.exp (0.1 : ℝ)) := by
  show (risk_ratio_l 0.5 0.25 1 1 (1 - 2 * ((1 - (0.1 + ((0 : ℕ) : ℝ) * 0.9)) / 2)) WALTER_CI,
        risk_ratio_r 0.5 0.25 1 1 (1 - 2 * ((1 - (0.1 + ((0 : ℕ) : ℝ) * 0.9)) / 2)) WALTER_CI)
      = (0.75 * Real.exp (-(0.1 : ℝ)), 0.75 * Real.exp (0.1 : ℝ))
  have hz : (1 : ℝ) - 2 * ((1 - (0.1 + ((0 : ℕ) : ℝ) * 0.9)) / 2) = 0.1 := by
    push_cast
    ring_nf
  rw [hz]
  unfold risk_ratio_l risk_ratio_r
  simp only [WALTER_CI]
  rw [get_phi_half_quarter, get_par_half_quarter]
  norm_num

theorem cvalStep_lin_one :
    cvalStep (fun q => 1 - 2 * q) 0.5 0.25 1 1 0.1 0.9 1 =
      (0.75 * Real.exp (-(1 : ℝ)), 0.75 * Real.exp (1 : ℝ)) := by
  show (risk_ratio_l 0.5 0.25 1 1 (1 - 2 * ((1 - (0.1 + ((1 : ℕ) : ℝ) * 0.9)) / 2)) WALTER_CI,
        risk_ratio_r 0.5 0.25 1 1 (1 - 2 * ((1 - (0.1 + ((1 : ℕ) : ℝ) * 0.9)) / 2)) WALTER_CI)
      = (0.75 * Real.exp (-(1 : ℝ)), 0.75 * Real.exp (1 : ℝ))
  have hz : (1 : ℝ) - 2 * ((1 - (0.1 + ((1 : ℕ) : ℝ) * 0.9)) / 2) = 1 := by
    push_cast
    ring_nf
  rw [hz]
  unfold risk_ratio_l risk_ratio_r
  simp only [WALTER_CI]
  rw [get_phi_half_quarter, get_par_half_quarter]
  norm_num

theorem not_contains_step0 :
    ¬ containsOne (0.75 * Real.exp (-(0.1 : ℝ)), 0.75 * Real.exp (0.1 : ℝ)) := by
  intro h
  have h2 : (1 : ℝ) ≤ 0.75 * Real.exp 0.1 := h.2
  have hb : (0.9 : ℝ) ≤ (Real.exp 0.1)⁻¹ := by
    have h3 := Real.add_one_le_exp (-0.1 : ℝ)
    rw [Real.exp_neg] at h3
    linarith
  have hp : (0 : ℝ) < Real.exp 0.1 := Real.exp_pos _
  have h4 : (0.9 : ℝ) * Real.exp 0.1 ≤ 1 := by
    have h5 := mul_le_mul_of_nonneg_right hb hp.le
    rw [inv_mul_cancel₀ hp.ne'] at h5
    exact h5
  linarith

theorem contains_step1 :
    containsOne (0.75 * Real.exp (-(1 : ℝ)), 0.75 * Real.exp (1 : ℝ)) := by
  have h1 : (1 : ℝ) ≥ 0.75 * Real.exp (-(1 : ℝ)) := by
    have h := Real.exp_lt_exp.mpr (show (-(1 : ℝ)) < 0 by norm_num)
    rw [Real.exp_zero] at h
    have hp := Real.exp_pos (-(1 : ℝ))
    linarith
  have h2 : (1 : ℝ) ≤ 0.75 * Real.exp (1 : ℝ) := by
    have h := Real.add_one_le_exp (1 : ℝ)
    linarith
  exact ⟨h1, h2⟩

/-- Counterexample to claim C1 as stated: with the critical-value
function `q ↦ 1 - 2q` (so that `z` equals the current confidence),
`p0 = 0.5`, `p1 = 0.25`, `n0 = n1 = 1`, base confidence `0.1` and step
`0.9`, the Walter interval does not contain 1 at the first iteration
and contains 1 at the second; the source search returns `0.9` (it stops
when the interval first contains 1) while the search described by the
claim (stop when the interval first does not contain 1) returns `1.8`. -/
theorem c1_counterexample :
    get_cvalue (fun q => 1 - 2 * q) 0.5 0.25 1 1 0.1 0.9 2 ≠
      get_cvalue_claim (fun q => 1 - 2 * q) 0.5 0.25 1 1 0.1 0.9 2 := by
  have hL : get_cvalue (fun q => 1 - 2 * q) 0.5 0.25 1 1 0.1 0.9 2 = some 0.9 := by
    unfold get_cvalue
    rw [get_cvalue_aux_succ, cvalStep_lin_zero, if_neg not_contains_step0]
    simp only [Nat.zero_add]
    rw [get_cvalue_aux_succ, cvalStep_lin_one, if_pos contains_step1]
    have harg : (1 : ℝ) - (0.1 + ((1 : ℕ) : ℝ) * 0.9 - 0.9) = 0.9 := by
      push_cast
      ring_nf
    rw [harg, roundTo_eq_of_bounds 0.9 9000 (by norm_num) (by norm_num)]
    norm_num
  have hR : get_cvalue_claim (fun q => 1 - 2 * q) 0.5 0.25 1 1 0.1 0.9 2 = some 1.8 := by
    unfold get_cvalue_claim
    rw [get_cvalue_claim_aux_succ, cvalStep_lin_zero, if_neg not_contains_step0]
    have harg : (1 : ℝ) - (0.1 + ((0 : ℕ) : ℝ) * 0.9 - 0.9) = 1.8 := by
      push_cast
      ring_nf
    rw [harg, roundTo_eq_of_bounds 1.8 18000 (by norm_num) (by norm_num)]
    norm_num
  rw [hL, hR]
  simp only [ne_eq, Option.some.injEq]
  norm_num

/-- Claim C1, amended by the counterexample `c1_counterexample`: the
search starts at `confidence = base`, increases the confidence by
`step` each iteration, recomputing the relative-risk interval with the
configured (Walter) variance method, stops the first time the interval
DOES contain 1, and returns `1 - (confidence - step)` rounded to 4
decimal places — the complement of the previous confidence level, the
last one at which the interval did not contain 1 (when one was
tested). -/
theorem c1_cvalue_stops_at_first_containing (isf : ℝ → ℝ) (p0 p1 n0 n1 base step : ℝ)
    (j fuel : ℕ)
    (hbefore : ∀ i < j, ¬ containsOne (cvalStep isf p0 p1 n0 n1 base step i))
    (hat : containsOne (cvalStep isf p0 p1 n0 n1 base step j))
    (hfuel : j < fuel) :
    get_cvalue isf p0 p1 n0 n1 base step fuel
      = some (roundTo 4 (1 - (base + (j : ℝ) * step - step))) :=
  get_cvalue_aux_first isf p0 p1 n0 n1 base step j hat fuel 0 (Nat.zero_le j) (by omega)
    (fun i _ hi => hbefore i hi)

/-- Witness for C1: with a constant-zero critical-value function and
equal group proportions the interval is `[1, 1]` at the very first
iteration, so the search returns immediately. -/
theorem c1_witness :
    get_cvalue (fun _ => 0) 0.5 0.5 1 1 0.5 0.25 1
      = some (roundTo 4 (1 - (0.5 + ((0 : ℕ) : ℝ) * 0.25 - 0.25))) :=
  c1_cvalue_stops_at_first_containing (fun _ => 0) 0.5 0.5 1 1 0.5 0.25 0 1
    (fun i hi => absurd hi (Nat.not_lt_zero i))
    (by rw [cvalStep_c1_const]; exact ⟨le_refl 1, le_refl 1⟩)
    (by norm_num)

/-- Counterexample to claim C2 as stated: at `p0 = 0.5`, `p1 = 0.25`,
`n0 = n1 = 1` with a constant-zero critical-value function the Walter
interval is `[0.75, 0.75]` at every iteration and never contains 1, so
the source search never terminates: there is no iteration bound and no
"no boundary found" failure. -/
theorem c2_counterexample :
    ¬ cvalueTerminates (fun _ => 0) 0.5 0.25 1 1 0.5 0.0001 := by
  rintro ⟨fuel, v, h⟩
  have h' : get_cvalue_aux (fun _ => 0) 0.5 0.25 1 1 0.5 0.0001 fuel 0 = some v := h
  have hs : (get_cvalue_aux (fun _ => 0) 0.5 0.25 1 1 0.5 0.0001 fuel 0).isSome = true := by
    rw [h']
    rfl
  obtain ⟨i, hi⟩ :=
    get_cvalue_aux_contains_of_isSome (fun _ => 0) 0.5 0.25 1 1 0.5 0.0001 fuel 0 hs
  rw [cvalStep_c2_const] at hi
  have h2 : (1 : ℝ) ≤ 0.75 := hi.2
  norm_num at h2

/-- Claim C2, amended by the counterexample `c2_counterexample`: the
source search has no iteration bound and no failure signal; it
terminates exactly when some iterate's relative-risk interval contains
1, and loops forever otherwise. -/
theorem c2_terminates_iff_some_step_contains (isf : ℝ → ℝ) (p0 p1 n0 n1 base step : ℝ) :
    cvalueTerminates isf p0 p1 n0 n1 base step ↔
      ∃ j, containsOne (cvalStep isf p0 p1 n0 n1 base step j) := by
  constructor
  · rintro ⟨fuel, v, h⟩
    refine get_cvalue_aux_contains_of_isSome isf p0 p1 n0 n1 base step fuel 0 ?_
    have h' : get_cvalue_aux isf p0 p1 n0 n1 base step fuel 0 = some v := h
    rw [h']
    rfl
  · rintro ⟨j, hj⟩
    have hsome := get_cvalue_aux_isSome_of_contains isf p0 p1 n0 n1 base step (j + 1) 0
      ⟨j, Nat.lt_succ_self j, by simpa using hj⟩
    obtain ⟨v, hv⟩ := Option.isSome_iff_exists.mp hsome
    exact ⟨j + 1, v, hv⟩

end LGC
